import Mathlib

/-!
Verification of the CC3064 lab repository.

The repository contains two code artifacts:

* a block file-copier (`main` in the unnamed C file): argument check,
  `open` of the source (read-only), `open` of the destination
  (`O_WRONLY | O_CREAT | O_TRUNC`, mode `0644`), a `while` loop reading
  up to 1024 bytes and writing each chunk, error handling via `perror`
  and `exit(1)` on the various paths, and a final success message;

* a custom syscall `sys_mycall` (`SYSCALL_DEFINE1(mycall, int, i)`)
  that logs its argument and returns `i + 10`, plus the user-space test
  `prueba.c` invoking it with `50` and checking for `60`.

The copier is embedded as a function parametric in a `Kernel` (the
behaviour of `open`/`read`/`write`/`close` provided by the OS), so that
the control flow, the emitted diagnostics, the `close` calls and the
exit status can be proved for every environment behaviour; a concrete
`FsKernel` instance models a POSIX file system for the functional
claims (round-trip copy, truncation, permission bits).
-/

namespace Copier

/-- `BUFFER_SIZE` from the C source: size of each read request. -/
def BUFFER_SIZE : Nat := 1024

/-- Observable actions of one run of the copier: successful and failed
`open` calls, reads (chunk / end-of-file / error), write calls with the
requested and the actually-written byte counts, `close` calls on each
handle, and the messages printed (`printf` usage line, the four
`perror` diagnostics, and the final success message). -/
inductive Event where
  | openSrcOk : Event
  | openSrcFail : Event
  | openDestOk : Event
  | openDestFail : Event
  | readChunk : Nat → Event
  | readEof : Event
  | readErr : Event
  | writeCall : Nat → Nat → Event
  | closeSrc : Event
  | closeDest : Event
  | printUsage : Event
  | printErrOpenSrc : Event
  | printErrOpenDest : Event
  | printErrWrite : Event
  | printErrRead : Event
  | printSuccess : Event
deriving DecidableEq, Repr

/-- The environment of the copier: how the OS answers its system calls.
`openR` opens a path read-only (`none` = failure, `-1` in C); `openW`
opens/creates a path for writing with the given mode bits; `readSrc`
answers a `read` of up to `BUFFER_SIZE` bytes on the source handle
(`none` = error return `-1`, `some data` = `data.length` bytes read,
`[]` meaning end of file); `writeDest` answers a `write` of the chunk
on the destination handle, returning the number of bytes written. -/
structure Kernel (σ : Type) where
  openR : σ → String → Option σ
  openW : σ → String → Nat → Option σ
  readSrc : σ → Option (List Nat) × σ
  writeDest : σ → List Nat → Nat × σ

/-- Outcome of a terminated run: the process exit status, the ordered
trace of observable events, and the final environment state. -/
structure RunResult (σ : Type) where
  exit : Nat
  events : List Event
  fin : σ
deriving Repr, DecidableEq

/-- The `while ((bytes_read = read(fd_src, buffer, BUFFER_SIZE)) > 0)`
loop of `main`, followed by the code after it: on error return (`-1`)
the loop condition fails, the `bytes_read == -1` branch prints the
read diagnostic, then both handles are closed, the success message is
printed and the function returns `0`; on end of file (`0`) the same
epilogue runs without the diagnostic; on a positive count the chunk is
written, and a mismatch between `bytes_written` and `bytes_read`
prints the write diagnostic, closes both handles and exits `1`.
`fuel` bounds the number of loop iterations (`none` = still looping). -/
def copyLoop (K : Kernel σ) : Nat → σ → List Event → Option (RunResult σ)
  | 0, _, _ => none
  | fuel + 1, s, acc =>
    match K.readSrc s with
    | (none, s1) =>
      some ⟨0, acc ++ [Event.readErr, Event.printErrRead, Event.closeSrc,
                       Event.closeDest, Event.printSuccess], s1⟩
    | (some data, s1) =>
      if data.length > 0 then
        let (written, s2) := K.writeDest s1 data
        if written ≠ data.length then
          some ⟨1, acc ++ [Event.readChunk data.length,
                           Event.writeCall data.length written,
                           Event.printErrWrite, Event.closeSrc,
                           Event.closeDest], s2⟩
        else
          copyLoop K fuel s2
            (acc ++ [Event.readChunk data.length,
                     Event.writeCall data.length written])
      else
        some ⟨0, acc ++ [Event.readEof, Event.closeSrc, Event.closeDest,
                         Event.printSuccess], s1⟩

/-- `main` of the copier: with other than exactly three `argv` entries
(program name plus two paths) it prints the usage line and exits `1`;
otherwise it opens the source read-only (failure: diagnostic, exit
`1`), opens/creates/truncates the destination with mode `0644`
(failure: diagnostic, close the source handle, exit `1`), and runs the
copy loop. -/
def runMain (K : Kernel σ) (argv : List String) (fuel : Nat) (s0 : σ) :
    Option (RunResult σ) :=
  match argv with
  | [_, source_file, dest_file] =>
    match K.openR s0 source_file with
    | none => some ⟨1, [Event.openSrcFail, Event.printErrOpenSrc], s0⟩
    | some s1 =>
      match K.openW s1 dest_file 0o644 with
      | none => some ⟨1, [Event.openSrcOk, Event.openDestFail,
                          Event.printErrOpenDest, Event.closeSrc], s1⟩
      | some s2 => copyLoop K fuel s2 [Event.openSrcOk, Event.openDestOk]
  | _ => some ⟨1, [Event.printUsage], s0⟩

/-! ### A POSIX-style file-system environment

`FsKernel` instantiates `Kernel` with a small file system: files are
an association list from path to mode bits and byte content.  `open`
read-only succeeds iff the path exists; `open` with
`O_WRONLY | O_CREAT | O_TRUNC` truncates an existing file (keeping its
mode bits, as POSIX `O_CREAT` does on an existing file) or creates an
absent one with the requested mode; `read` returns the next up-to-1024
bytes of the source file's current content at the handle's offset;
`write` appends at the destination handle's position (always at end of
file here, since the destination starts truncated and is only written
sequentially) and reports the full count. -/

/-- A file: its permission mode bits and its byte content. -/
structure File where
  mode : Nat
  content : List Nat
deriving DecidableEq, Repr

/-- Look up a path in the file system (first match). -/
def fsLookup : List (String × File) → String → Option File
  | [], _ => none
  | (q, f) :: rest, p => if q = p then some f else fsLookup rest p

/-- Replace the file at a path, or append the entry if the path is
absent. -/
def fsSet : List (String × File) → String → File → List (String × File)
  | [], p, f => [(p, f)]
  | (q, g) :: rest, p, f =>
    if q = p then (q, f) :: rest else (q, g) :: fsSet rest p f

/-- State of the file-system environment: the files, plus the path and
read offset of the open source handle and the path and write position
of the open destination handle. -/
structure FsState where
  fs : List (String × File)
  srcPath : String
  srcOff : Nat
  destPath : String
  destOff : Nat
deriving Repr, DecidableEq

/-- Initial environment: just a file system, no handle open. -/
def FsState.init (fs : List (String × File)) : FsState :=
  ⟨fs, "", 0, "", 0⟩

/-- `open(path, O_RDONLY)`: succeeds iff the file exists; the handle
starts at offset `0`. -/
def fsOpenR (s : FsState) (p : String) : Option FsState :=
  match fsLookup s.fs p with
  | none => none
  | some _ => some { s with srcPath := p, srcOff := 0 }

/-- `open(path, O_WRONLY | O_CREAT | O_TRUNC, mode)`: an existing file
is truncated to empty content and keeps its mode bits; an absent file
is created empty with the requested mode bits. -/
def fsOpenW (s : FsState) (p : String) (mode : Nat) : Option FsState :=
  match fsLookup s.fs p with
  | some f =>
    some { s with fs := fsSet s.fs p { f with content := [] },
                  destPath := p, destOff := 0 }
  | none =>
    some { s with fs := fsSet s.fs p ⟨mode, []⟩, destPath := p, destOff := 0 }

/-- `read(fd_src, buffer, BUFFER_SIZE)`: the next up-to-1024 bytes of
the source file's current content starting at the handle's offset;
an empty result is end of file (return `0`). -/
def fsRead (s : FsState) : Option (List Nat) × FsState :=
  match fsLookup s.fs s.srcPath with
  | none => (some [], s)
  | some f =>
    let data := (f.content.drop s.srcOff).take BUFFER_SIZE
    (some data, { s with srcOff := s.srcOff + data.length })

/-- `write(fd_dest, buffer, n)`: append the chunk to the destination
file's content and report the full count written. -/
def fsWrite (s : FsState) (data : List Nat) : Nat × FsState :=
  match fsLookup s.fs s.destPath with
  | none => (0, s)
  | some f =>
    (data.length,
     { s with fs := fsSet s.fs s.destPath { f with content := f.content ++ data },
              destOff := s.destOff + data.length })

/-- The file-system instantiation of the environment. -/
def FsKernel : Kernel FsState :=
  ⟨fsOpenR, fsOpenW, fsRead, fsWrite⟩

/-! ### Fault-injecting environments used as concrete test runs -/

/-- An environment whose opens succeed and whose first `read` already
reports an error (`-1`). -/
def readErrKernel : Kernel Unit where
  openR := fun s _ => some s
  openW := fun s _ _ => some s
  readSrc := fun s => (none, s)
  writeDest := fun s data => (data.length, s)

/-- An environment whose opens succeed, whose `read` always returns a
one-byte chunk, and whose `write` writes nothing (count `0`). -/
def shortWriteKernel : Kernel Unit where
  openR := fun s _ => some s
  openW := fun s _ _ => some s
  readSrc := fun s => (some [7], s)
  writeDest := fun s _ => (0, s)

/-- An environment in which every `open` fails. -/
def openFailKernel : Kernel Unit where
  openR := fun _ _ => none
  openW := fun _ _ _ => none
  readSrc := fun s => (some [], s)
  writeDest := fun s _ => (0, s)

/-- An environment whose source `open` succeeds but whose destination
`open` fails. -/
def destFailKernel : Kernel Unit where
  openR := fun s _ => some s
  openW := fun _ _ _ => none
  readSrc := fun s => (some [], s)
  writeDest := fun s _ => (0, s)

/-! ### Association-list lemmas for the file system -/

/-- Looking up the path just set yields the file just stored. -/
theorem fsLookup_fsSet_self (l : List (String × File)) (p : String) (f : File) :
    fsLookup (fsSet l p f) p = some f := by
  induction l with
  | nil => simp [fsSet, fsLookup]
  | cons hd tl ih =>
    by_cases h : hd.1 = p
    · simp [fsSet, fsLookup, h]
    · simp [fsSet, fsLookup, h, ih]

/-- Setting one path leaves lookups of any other path unchanged. -/
theorem fsLookup_fsSet_ne (l : List (String × File)) (p q : String) (f : File)
    (h : q ≠ p) : fsLookup (fsSet l p f) q = fsLookup l q := by
  induction l with
  | nil => simp [fsSet, fsLookup, Ne.symm h]
  | cons hd tl ih =>
    by_cases h2 : hd.1 = p
    · subst h2
      simp [fsSet, fsLookup, h, Ne.symm h]
    · simp [fsSet, fsLookup, h2, ih]

/-! ### Claims about the error paths -/

/-- C7: for every invocation with an argument count other than exactly
two path arguments (`argv` not of length 3, counting the program
name), the copier prints the usage message and exits `1`, without
attempting any file I/O (the trace holds no open/read/write event) and
leaving the environment state untouched, so no destination file is
created or modified. -/
theorem usage_error_exits_one {σ : Type} (K : Kernel σ) (argv : List String)
    (fuel : Nat) (s0 : σ) (h : argv.length ≠ 3) :
    runMain K argv fuel s0 = some ⟨1, [Event.printUsage], s0⟩ := by
  match argv with
  | [] => rfl
  | [_] => rfl
  | [_, _] => rfl
  | [_, _, _] => exact absurd rfl h
  | _ :: _ :: _ :: _ :: _ => rfl

/-- Witness for C7: a run with a single `argv` entry. -/
theorem usage_error_exits_one_witness :
    (["cp"] : List String).length ≠ 3 ∧
      runMain FsKernel ["cp"] 0 (FsState.init []) =
        some ⟨1, [Event.printUsage], FsState.init []⟩ :=
  ⟨by decide, usage_error_exits_one FsKernel ["cp"] 0 (FsState.init []) (by decide)⟩

/-- C6: for every run in which the source `open` fails, the copier
reports the source-open error and exits `1`; the trace holds no
destination-open, read or write event, and the environment state is
returned untouched, so no destination file is created or modified. -/
theorem source_open_failure_exits_one {σ : Type} (K : Kernel σ)
    (prog src dst : String) (fuel : Nat) (s0 : σ)
    (h : K.openR s0 src = none) :
    runMain K [prog, src, dst] fuel s0 =
      some ⟨1, [Event.openSrcFail, Event.printErrOpenSrc], s0⟩ := by
  simp [runMain, h]

/-- Witness for C6: running the file-system environment on a missing
source path. -/
theorem source_open_failure_exits_one_witness :
    FsKernel.openR (FsState.init []) "nope" = none ∧
      runMain FsKernel ["cp", "nope", "out"] 5 (FsState.init []) =
        some ⟨1, [Event.openSrcFail, Event.printErrOpenSrc], FsState.init []⟩ :=
  ⟨rfl, source_open_failure_exits_one FsKernel "cp" "nope" "out" 5
    (FsState.init []) rfl⟩

/-- C5: for every run in which the source opens successfully but the
destination `open` (mode `0644`) fails, the copier reports the
destination-open error, closes the already-open source handle, and
exits `1`; the trace holds no read or write event. -/
theorem dest_open_failure_exits_one {σ : Type} (K : Kernel σ)
    (prog src dst : String) (fuel : Nat) (s0 s1 : σ)
    (h1 : K.openR s0 src = some s1) (h2 : K.openW s1 dst 0o644 = none) :
    runMain K [prog, src, dst] fuel s0 =
      some ⟨1, [Event.openSrcOk, Event.openDestFail, Event.printErrOpenDest,
                Event.closeSrc], s1⟩ := by
  simp [runMain, h1, h2]

/-- Witness for C5: the environment whose destination `open` fails. -/
theorem dest_open_failure_exits_one_witness :
    destFailKernel.openR () "a" = some () ∧
      destFailKernel.openW () "b" 0o644 = none ∧
      runMain destFailKernel ["cp", "a", "b"] 5 () =
        some ⟨1, [Event.openSrcOk, Event.openDestFail, Event.printErrOpenDest,
                  Event.closeSrc], ()⟩ :=
  ⟨rfl, rfl, dest_open_failure_exits_one destFailKernel "cp" "a" "b" 5 () () rfl rfl⟩

/-- C1 (evaluation at the failing input): when both opens succeed and
the first `read` returns the error indicator, the run reports the read
error and closes both handles — but then prints the success message
and terminates with exit status `0`, not `1`: the `bytes_read == -1`
branch only calls `perror` and falls through to the common epilogue
that returns `0`. -/
theorem read_error_run_exits_zero :
    runMain readErrKernel ["cp", "a", "b"] 1 () =
      some ⟨0, [Event.openSrcOk, Event.openDestOk, Event.readErr,
                Event.printErrRead, Event.closeSrc, Event.closeDest,
                Event.printSuccess], ()⟩ := rfl

/-- Shape of every terminated copy loop: beyond the events accumulated
before it, the loop emits exactly one `close` of each handle and opens
nothing. -/
theorem copyLoop_events_shape {σ : Type} (K : Kernel σ) :
    ∀ (fuel : Nat) (s : σ) (acc : List Event) (r : RunResult σ),
      copyLoop K fuel s acc = some r →
      ∃ mid, r.events = acc ++ mid ∧
        mid.count Event.closeSrc = 1 ∧ mid.count Event.closeDest = 1 ∧
        mid.count Event.openSrcOk = 0 ∧ mid.count Event.openDestOk = 0 := by
  intro fuel
  induction fuel with
  | zero => intro s acc r h; simp [copyLoop] at h
  | succ n ih =>
    intro s acc r h
    simp only [copyLoop] at h
    split at h
    · simp only [Option.some.injEq] at h
      subst h
      exact ⟨_, rfl, by decide, by decide, by decide, by decide⟩
    · rename_i data s1 heq
      split at h
      · split at h
        · simp only [Option.some.injEq] at h
          subst h
          refine ⟨_, rfl, ?_, ?_, ?_, ?_⟩ <;> simp [List.count_cons]
        · obtain ⟨mid, hev, h1, h2, h3, h4⟩ := ih _ _ _ h
          refine ⟨[Event.readChunk data.length,
                   Event.writeCall data.length (K.writeDest s1 data).1] ++ mid,
                  ?_, ?_, ?_, ?_, ?_⟩ <;>
            simp [hev, List.count_append, List.count_cons, h1, h2, h3, h4]
      · simp only [Option.some.injEq] at h
        subst h
        exact ⟨_, rfl, by decide, by decide, by decide, by decide⟩

/-- C3: on every terminating execution path, each successfully opened
handle is closed exactly once before termination (the trace counts of
`close` events equal those of the successful `open` events), and at
most one source handle and one destination handle are ever opened, so
at most one of each is open at any time. -/
theorem handles_closed_exactly_once {σ : Type} (K : Kernel σ)
    (argv : List String) (fuel : Nat) (s0 : σ) (r : RunResult σ)
    (h : runMain K argv fuel s0 = some r) :
    r.events.count Event.closeSrc = r.events.count Event.openSrcOk ∧
      r.events.count Event.closeDest = r.events.count Event.openDestOk ∧
      r.events.count Event.openSrcOk ≤ 1 ∧
      r.events.count Event.openDestOk ≤ 1 := by
  unfold runMain at h
  split at h
  · split at h
    · simp only [Option.some.injEq] at h
      subst h
      refine ⟨?_, ?_, ?_, ?_⟩ <;> simp [List.count_cons]
    · split at h
      · simp only [Option.some.injEq] at h
        subst h
        refine ⟨?_, ?_, ?_, ?_⟩ <;> simp [List.count_cons]
      · obtain ⟨mid, hev, h1, h2, h3, h4⟩ := copyLoop_events_shape K fuel _ _ r h
        rw [hev]
        simp [List.count_append, List.count_cons, h1, h2, h3, h4]
  · simp only [Option.some.injEq] at h
    subst h
    refine ⟨?_, ?_, ?_, ?_⟩ <;> simp [List.count_cons]

/-- Witness for C3: a concrete successful three-byte copy run. -/
theorem handles_closed_exactly_once_witness :
    runMain FsKernel ["cp", "a", "b"] 10 (FsState.init [("a", ⟨0o644, [1, 2, 3]⟩)]) =
        some ⟨0, [Event.openSrcOk, Event.openDestOk, Event.readChunk 3,
                  Event.writeCall 3 3, Event.readEof, Event.closeSrc,
                  Event.closeDest, Event.printSuccess],
              ⟨[("a", ⟨0o644, [1, 2, 3]⟩), ("b", ⟨0o644, [1, 2, 3]⟩)], "a", 3, "b", 3⟩⟩ ∧
      ([Event.openSrcOk, Event.openDestOk, Event.readChunk 3,
        Event.writeCall 3 3, Event.readEof, Event.closeSrc,
        Event.closeDest, Event.printSuccess].count Event.closeSrc =
        [Event.openSrcOk, Event.openDestOk, Event.readChunk 3,
         Event.writeCall 3 3, Event.readEof, Event.closeSrc,
         Event.closeDest, Event.printSuccess].count Event.openSrcOk) :=
  ⟨rfl, (handles_closed_exactly_once FsKernel ["cp", "a", "b"] 10
    (FsState.init [("a", ⟨0o644, [1, 2, 3]⟩)]) _ rfl).1⟩

/-- C4: whenever, at any point of the copy loop, a successful read
yields a chunk of `n > 0` bytes and the subsequent write reports a
count different from `n`, the loop reports the write error, closes
both handles and terminates at once with exit status `1`: the trace
ends right after the two closes, so no further read, write or retry is
attempted. -/
theorem write_mismatch_exits_one {σ : Type} (K : Kernel σ) (fuel : Nat)
    (s s1 s2 : σ) (acc : List Event) (data : List Nat) (written : Nat)
    (hfuel : 0 < fuel)
    (hread : K.readSrc s = (some data, s1))
    (hdata : 0 < data.length)
    (hwrite : K.writeDest s1 data = (written, s2))
    (hne : written ≠ data.length) :
    copyLoop K fuel s acc =
      some ⟨1, acc ++ [Event.readChunk data.length,
                       Event.writeCall data.length written,
                       Event.printErrWrite, Event.closeSrc, Event.closeDest],
            s2⟩ := by
  cases fuel with
  | zero => exact absurd hfuel (by simp)
  | succ n => simp [copyLoop, hread, hdata, hwrite, hne]

/-- Witness for C4: the environment whose write reports `0` bytes
against a one-byte chunk. -/
theorem write_mismatch_exits_one_witness :
    (0 < (3 : Nat)) ∧ shortWriteKernel.readSrc () = (some [7], ()) ∧
      (0 < ([7] : List Nat).length) ∧ shortWriteKernel.writeDest () [7] = (0, ()) ∧
      (0 : Nat) ≠ ([7] : List Nat).length ∧
      copyLoop shortWriteKernel 3 () [] =
        some ⟨1, [Event.readChunk 1, Event.writeCall 1 0, Event.printErrWrite,
                  Event.closeSrc, Event.closeDest], ()⟩ :=
  ⟨by decide, rfl, by decide, rfl, by decide,
    write_mismatch_exits_one shortWriteKernel 3 () () () [] [7] 0
      (by decide) rfl (by decide) rfl (by decide)⟩

/-! ### The successful copy: round-trip identity over the file system -/

/-- The mode bits the destination file carries after the destination
`open`: its previous mode bits if it already existed (POSIX `O_CREAT`
does not change the mode of an existing file), else the requested
`0644`. -/
def destModeAfterOpen (fs : List (String × File)) (dst : String) : Nat :=
  match fsLookup fs dst with
  | some g => g.mode
  | none => 0o644

/-- Invariant proof of the copy loop over the file system: if the
source file holds `c` and the destination currently holds the first
`off` bytes of `c` (with the source handle at offset `off`), then with
enough fuel the loop terminates with exit `0`, the destination holding
all of `c` (mode bits untouched) and the source untouched. -/
theorem fs_copyLoop_copies (src dst : String) (hne : src ≠ dst)
    (smode dmode : Nat) (c : List Nat) :
    ∀ (fuel : Nat) (fs : List (String × File)) (off dOff : Nat)
      (acc : List Event),
      fsLookup fs src = some ⟨smode, c⟩ →
      fsLookup fs dst = some ⟨dmode, c.take off⟩ →
      c.length - off + 1 ≤ fuel →
      ∃ r, copyLoop FsKernel fuel ⟨fs, src, off, dst, dOff⟩ acc = some r ∧
        r.exit = 0 ∧ fsLookup r.fin.fs dst = some ⟨dmode, c⟩ ∧
        fsLookup r.fin.fs src = some ⟨smode, c⟩ := by
  intro fuel
  induction fuel with
  | zero => intro fs off dOff acc _ _ hfuel; omega
  | succ n ih =>
    intro fs off dOff acc hsrc hdst hfuel
    have hread : FsKernel.readSrc ⟨fs, src, off, dst, dOff⟩ =
        (some ((c.drop off).take BUFFER_SIZE),
         ⟨fs, src, off + ((c.drop off).take BUFFER_SIZE).length, dst, dOff⟩) := by
      simp [FsKernel, fsRead, hsrc]
    by_cases hd : (c.drop off).take BUFFER_SIZE = []
    · -- end of file: the whole content has been transferred
      have hoff : c.length ≤ off := by
        rcases List.take_eq_nil_iff.mp hd with h | h
        · exact absurd h (by simp [BUFFER_SIZE])
        · exact List.drop_eq_nil_iff.mp h
      have htake : c.take off = c := List.take_of_length_le hoff
      refine ⟨⟨0, acc ++ [Event.readEof, Event.closeSrc, Event.closeDest,
                          Event.printSuccess],
               ⟨fs, src, off + ((c.drop off).take BUFFER_SIZE).length, dst, dOff⟩⟩,
              ?_, rfl, ?_, ?_⟩
      · simp [copyLoop, hread, hd]
      · simpa [htake] using hdst
      · exact hsrc
    · -- a chunk of 1 ≤ n ≤ 1024 bytes is read and fully written
      have hlen : 0 < ((c.drop off).take BUFFER_SIZE).length :=
        List.length_pos.mpr hd
      have hwrite : FsKernel.writeDest
          ⟨fs, src, off + ((c.drop off).take BUFFER_SIZE).length, dst, dOff⟩
          ((c.drop off).take BUFFER_SIZE) =
          (((c.drop off).take BUFFER_SIZE).length,
           ⟨fsSet fs dst ⟨dmode, c.take off ++ (c.drop off).take BUFFER_SIZE⟩,
            src, off + ((c.drop off).take BUFFER_SIZE).length, dst,
            dOff + ((c.drop off).take BUFFER_SIZE).length⟩) := by
        simp [FsKernel, fsWrite, hdst]
      have hcat : c.take off ++ (c.drop off).take BUFFER_SIZE =
          c.take (off + ((c.drop off).take BUFFER_SIZE).length) := by
        rw [List.take_add]
        congr 1
        rw [List.length_take, List.take_eq_take]
        omega
      have hlen' : ((c.drop off).take BUFFER_SIZE).length ≤ c.length - off := by
        rw [List.length_take]
        simp [List.length_drop]
      obtain ⟨r, hr, hexit, hdst', hsrc'⟩ :=
        ih (fsSet fs dst ⟨dmode, c.take off ++ (c.drop off).take BUFFER_SIZE⟩)
          (off + ((c.drop off).take BUFFER_SIZE).length)
          (dOff + ((c.drop off).take BUFFER_SIZE).length)
          (acc ++ [Event.readChunk ((c.drop off).take BUFFER_SIZE).length,
                   Event.writeCall ((c.drop off).take BUFFER_SIZE).length
                     ((c.drop off).take BUFFER_SIZE).length])
          (by rw [fsLookup_fsSet_ne _ _ _ _ hne]; exact hsrc)
          (by rw [fsLookup_fsSet_self, hcat])
          (by omega)
      refine ⟨r, ?_, hexit, hdst', hsrc'⟩
      simp only [copyLoop, hread, hlen, if_pos, hwrite]
      simpa using hr

/-- Full characterization of a successful run over the file system:
with the source holding `c`, a distinct destination path and enough
fuel, the run terminates with exit `0`, the destination holding
exactly `c` with the mode bits determined by the destination `open`,
and the source file untouched. -/
theorem copy_run_spec (prog src dst : String) (hne : src ≠ dst)
    (smode : Nat) (c : List Nat) (fs : List (String × File)) (fuel : Nat)
    (hsrc : fsLookup fs src = some ⟨smode, c⟩)
    (hfuel : c.length + 1 ≤ fuel) :
    ∃ r, runMain FsKernel [prog, src, dst] fuel (FsState.init fs) = some r ∧
      r.exit = 0 ∧
      fsLookup r.fin.fs dst = some ⟨destModeAfterOpen fs dst, c⟩ ∧
      fsLookup r.fin.fs src = some ⟨smode, c⟩ := by
  have hopenR : FsKernel.openR (FsState.init fs) src =
      some ⟨fs, src, 0, "", 0⟩ := by
    simp [FsKernel, fsOpenR, FsState.init, hsrc]
  have hopenW : FsKernel.openW ⟨fs, src, 0, "", 0⟩ dst 0o644 =
      some ⟨fsSet fs dst ⟨destModeAfterOpen fs dst, []⟩, src, 0, dst, 0⟩ := by
    unfold destModeAfterOpen
    cases hg : fsLookup fs dst with
    | some g => simp [FsKernel, fsOpenW, hg]
    | none => simp [FsKernel, fsOpenW, hg]
  obtain ⟨r, hr, hexit, hdst', hsrc'⟩ :=
    fs_copyLoop_copies src dst hne smode (destModeAfterOpen fs dst) c fuel
      (fsSet fs dst ⟨destModeAfterOpen fs dst, []⟩) 0 0
      [Event.openSrcOk, Event.openDestOk]
      (by rw [fsLookup_fsSet_ne _ _ _ _ hne]; exact hsrc)
      (by rw [fsLookup_fsSet_self]; simp)
      (by omega)
  exact ⟨r, by simp [runMain, hopenR, hopenW, hr], hexit, hdst', hsrc'⟩

/-- C2: for every source file content `c` (in particular one longer
than the 1024-byte buffer), a run over a distinct destination path
with enough fuel succeeds with exit `0`, and afterwards the
destination file's byte content is identical to the source file's
(which is untouched) — in particular of the same length. -/
theorem successful_copy_roundtrip (prog src dst : String) (hne : src ≠ dst)
    (smode : Nat) (c : List Nat) (fs : List (String × File)) (fuel : Nat)
    (hsrc : fsLookup fs src = some ⟨smode, c⟩)
    (hfuel : c.length + 1 ≤ fuel) :
    ∃ r f', runMain FsKernel [prog, src, dst] fuel (FsState.init fs) = some r ∧
      r.exit = 0 ∧ fsLookup r.fin.fs dst = some f' ∧
      fsLookup r.fin.fs src = some ⟨smode, c⟩ ∧
      f'.content = c ∧ f'.content.length = c.length := by
  obtain ⟨r, hr, hexit, hdst', hsrc'⟩ :=
    copy_run_spec prog src dst hne smode c fs fuel hsrc hfuel
  exact ⟨r, _, hr, hexit, hdst', hsrc', rfl, rfl⟩

/-- Witness for C2: a 2500-byte source file, spanning three buffer
reads. -/
theorem successful_copy_roundtrip_witness :
    ∃ r f', runMain FsKernel ["cp", "a", "b"] 2501
        (FsState.init [("a", ⟨0o644, List.range 2500⟩)]) = some r ∧
      r.exit = 0 ∧ fsLookup r.fin.fs "b" = some f' ∧
      fsLookup r.fin.fs "a" = some ⟨0o644, List.range 2500⟩ ∧
      f'.content = List.range 2500 ∧
      f'.content.length = (List.range 2500).length :=
  successful_copy_roundtrip "cp" "a" "b" (by decide) 0o644 (List.range 2500)
    [("a", ⟨0o644, List.range 2500⟩)] 2501 rfl (by simp)

/-- C8 (amended): after every successful run the destination file
exists holding the source's content; a destination created by the run
(absent beforehand) carries permission bits `0644`, while a
pre-existing destination is truncated and overwritten but keeps its
previous permission bits, since `O_CREAT` does not change the mode of
an existing file. -/
theorem dest_exists_mode_after_run (prog src dst : String) (hne : src ≠ dst)
    (smode : Nat) (c : List Nat) (fs : List (String × File)) (fuel : Nat)
    (hsrc : fsLookup fs src = some ⟨smode, c⟩)
    (hfuel : c.length + 1 ≤ fuel) :
    ∃ r, runMain FsKernel [prog, src, dst] fuel (FsState.init fs) = some r ∧
      r.exit = 0 ∧
      fsLookup r.fin.fs dst = some ⟨destModeAfterOpen fs dst, c⟩ ∧
      (fsLookup fs dst = none → destModeAfterOpen fs dst = 0o644) ∧
      (∀ g, fsLookup fs dst = some g → destModeAfterOpen fs dst = g.mode) := by
  obtain ⟨r, hr, hexit, hdst', _⟩ :=
    copy_run_spec prog src dst hne smode c fs fuel hsrc hfuel
  refine ⟨r, hr, hexit, hdst', ?_, ?_⟩
  · intro h; simp [destModeAfterOpen, h]
  · intro g h; simp [destModeAfterOpen, h]

/-- Witness for C8's amended statement: copying onto an absent
destination path. -/
theorem dest_exists_mode_after_run_witness :
    ∃ r, runMain FsKernel ["cp", "a", "b"] 3
        (FsState.init [("a", ⟨0o644, [1, 2]⟩)]) = some r ∧
      r.exit = 0 ∧
      fsLookup r.fin.fs "b" =
        some ⟨destModeAfterOpen [("a", ⟨0o644, [1, 2]⟩)] "b", [1, 2]⟩ ∧
      (fsLookup [("a", ⟨0o644, [1, 2]⟩)] "b" = none →
        destModeAfterOpen [("a", ⟨0o644, [1, 2]⟩)] "b" = 0o644) ∧
      (∀ g, fsLookup [("a", ⟨0o644, [1, 2]⟩)] "b" = some g →
        destModeAfterOpen [("a", ⟨0o644, [1, 2]⟩)] "b" = g.mode) :=
  dest_exists_mode_after_run "cp" "a" "b" (by decide) 0o644 [1, 2]
    [("a", ⟨0o644, [1, 2]⟩)] 3 rfl (by simp)

/-- Counterexample to C8 as stated: a successful run onto a
pre-existing destination with mode `0600` leaves the destination with
mode `0600`, not `0644`. -/
theorem dest_mode_counterexample :
    (runMain FsKernel ["cp", "a", "b"] 3
        (FsState.init [("a", ⟨0o644, [1]⟩), ("b", ⟨0o600, [9, 9]⟩)])).map
        (fun r => (r.exit, fsLookup r.fin.fs "b")) =
      some (0, some ⟨0o600, [1]⟩) ∧ (0o600 : Nat) ≠ 0o644 :=
  ⟨rfl, by decide⟩

/-- C10: when the source and destination paths are the same file, the
destination `open` truncates the file before any byte is read, so the
first read hits end of file at once, the run exits `0`, and the file
is left empty. -/
theorem same_path_truncates (fs : List (String × File)) (prog p : String)
    (f : File) (fuel : Nat) (hp : fsLookup fs p = some f) (hfuel : 0 < fuel) :
    runMain FsKernel [prog, p, p] fuel (FsState.init fs) =
      some ⟨0, [Event.openSrcOk, Event.openDestOk, Event.readEof,
                Event.closeSrc, Event.closeDest, Event.printSuccess],
            ⟨fsSet fs p ⟨f.mode, []⟩, p, 0, p, 0⟩⟩ ∧
      fsLookup (fsSet fs p ⟨f.mode, []⟩) p = some ⟨f.mode, []⟩ := by
  constructor
  · have hopenR : FsKernel.openR (FsState.init fs) p =
        some ⟨fs, p, 0, "", 0⟩ := by
      simp [FsKernel, fsOpenR, FsState.init, hp]
    have hopenW : FsKernel.openW ⟨fs, p, 0, "", 0⟩ p 0o644 =
        some ⟨fsSet fs p ⟨f.mode, []⟩, p, 0, p, 0⟩ := by
      simp [FsKernel, fsOpenW, hp]
    have hread : FsKernel.readSrc ⟨fsSet fs p ⟨f.mode, []⟩, p, 0, p, 0⟩ =
        (some [], ⟨fsSet fs p ⟨f.mode, []⟩, p, 0, p, 0⟩) := by
      simp [FsKernel, fsRead, fsLookup_fsSet_self]
    cases fuel with
    | zero => omega
    | succ n => simp [runMain, hopenR, hopenW, copyLoop, hread]
  · exact fsLookup_fsSet_self fs p ⟨f.mode, []⟩

/-- Witness for C10: a three-byte file copied onto itself. -/
theorem same_path_truncates_witness :
    (runMain FsKernel ["cp", "p", "p"] 9
        (FsState.init [("p", ⟨0o644, [1, 2, 3]⟩)]) =
      some ⟨0, [Event.openSrcOk, Event.openDestOk, Event.readEof,
                Event.closeSrc, Event.closeDest, Event.printSuccess],
            ⟨fsSet [("p", ⟨0o644, [1, 2, 3]⟩)] "p" ⟨0o644, []⟩, "p", 0, "p", 0⟩⟩) ∧
      fsLookup (fsSet [("p", ⟨0o644, [1, 2, 3]⟩)] "p" ⟨0o644, []⟩) "p" =
        some ⟨0o644, []⟩ :=
  same_path_truncates [("p", ⟨0o644, [1, 2, 3]⟩)] "cp" "p" ⟨0o644, [1, 2, 3]⟩ 9
    rfl (by decide)

end Copier

namespace Mycall

/-! ### The custom syscall and its user-space test

`SYSCALL_DEFINE1(mycall, int, i)` logs the received value with
`printk` and returns `i + 10`; the argument is a C `int`, so the
addition is 32-bit two's-complement arithmetic, and the result is
widened to `long` for the syscall return. `prueba.c` invokes the
syscall with `50` and prints the success line iff the result is
`60`. -/

/-- `INT_MAX` of a 32-bit C `int`. -/
def INT_MAX : Int := 2 ^ 31 - 1

/-- Two's-complement wrap-around of a 32-bit signed addition result. -/
def wrap32 (x : Int) : Int := (x + 2 ^ 31) % 2 ^ 32 - 2 ^ 31

/-- What one call of the handler does: the value written to the kernel
log by `printk` and the value returned. -/
structure CallResult where
  logged : Int
  ret : Int
deriving DecidableEq, Repr

/-- `sys_mycall`: log the received `int` and return `i + 10` (32-bit
arithmetic, widened to `long`). -/
def sys_mycall (i : Int) : CallResult :=
  ⟨i, wrap32 (i + 10)⟩

/-- The value `prueba.c` receives from `syscall(__NR_mycall, 50)`. -/
def prueba_res : Int := (sys_mycall 50).ret

/-- The verdict line `prueba.c` prints: the success branch iff the
result equals `60`. -/
def prueba_verdict : String :=
  if prueba_res = 60 then "Funko el kernel" else "No funko el kernel"

/-- C9: for every `int` input `i` with `i ≤ INT_MAX - 10` (and, being
an `int`, `i ≥ -2^31`), the handler logs the received value and
returns `i + 10` without wrap-around; consequently the bundled test,
invoking it with `50`, observes `60` and prints the success branch. -/
theorem mycall_adds_ten (i : Int) (h1 : -2 ^ 31 ≤ i) (h2 : i ≤ INT_MAX - 10) :
    (sys_mycall i).ret = i + 10 ∧ (sys_mycall i).logged = i ∧
      prueba_res = 60 ∧ prueba_verdict = "Funko el kernel" := by
  refine ⟨?_, rfl, by decide, by decide⟩
  unfold sys_mycall wrap32
  unfold INT_MAX at h2
  simp only []
  omega

/-- Witness for C9: the test's own input `50`. -/
theorem mycall_adds_ten_witness :
    (-2 ^ 31 ≤ (50 : Int)) ∧ ((50 : Int) ≤ INT_MAX - 10) ∧
      ((sys_mycall 50).ret = 50 + 10 ∧ (sys_mycall 50).logged = 50 ∧
        prueba_res = 60 ∧ prueba_verdict = "Funko el kernel") :=
  ⟨by decide, by decide, mycall_adds_ten 50 (by decide) (by decide)⟩

end Mycall
